import Mathlib

/-!
Verification of the Polly-API analytics core.

The analytics layer (src/api/analytics/services.py and src/api/analytics/utils.py)
is embedded shallowly: Python numbers become `ℚ` (with `ℝ` only where the source
takes a square root), counts become `ℕ`, timestamps become epoch seconds in `ℚ`
or `ℤ`, and Python dicts become insertion-ordered association lists.  Decimal
literals of the source (`0.1`, `1.2`, `1.1`, `0.9`) are embedded as the exact
rationals they denote.
-/

namespace PollyAnalytics

/-- From utils.clamp: `max(min_val, min(max_val, value))`. -/
def clamp (value min_val max_val : ℚ) : ℚ :=
  max min_val (min max_val value)

/-- Python's `round(x, 2)`.  Modelled as rounding `100 x` to the nearest
integer.  (Python's float round breaks exact ties to even, Mathlib's `round`
breaks them upward; no statement below evaluates `roundTo2` at an exact
half-way point, so the models agree on everything proved here.) -/
def roundTo2 (x : ℚ) : ℚ :=
  ((round (x * 100) : ℤ) : ℚ) / 100

/-- From services.get_poll_analytics (lines 128-129):
`engagement_rate = (total_votes / poll_views * 100) if poll_views > 0 else 0.0`. -/
def engagement_rate (total_votes poll_views : ℕ) : ℚ :=
  if poll_views > 0 then (total_votes : ℚ) / (poll_views : ℚ) * 100 else 0

/-- From services._calculate_poll_performance_score (lines 341-371):
`engagement_rate = vote_count / poll_views if poll_views > 0 else 0`,
`recency_factor = max(0, 1 - days_old / 30)`,
`score = min(100, vote_count*10 + engagement_rate*50 + recency_factor*20)`,
returned as `round(score, 2)`.  `days_old` is the integer day count of the
timedelta `now - created_at`. -/
def performance_score (vote_count poll_views : ℕ) (days_old : ℤ) : ℚ :=
  let er : ℚ := if poll_views > 0 then (vote_count : ℚ) / (poll_views : ℚ) else 0
  let recency_factor : ℚ := max 0 (1 - (days_old : ℚ) / 30)
  roundTo2 (min 100 ((vote_count : ℚ) * 10 + er * 50 + recency_factor * 20))

/-- From utils.AnalyticsCalculator.calculate_engagement_score (line 100):
`complexity_factor = min(1.2, 1 + (option_count - 2) * 0.1)`. -/
def complexity_factor (option_count : ℕ) : ℚ :=
  min (6/5) (1 + ((option_count : ℚ) - 2) * (1/10))

/-- From utils.AnalyticsCalculator.calculate_engagement_score (lines 66-105).
The source returns `0.0` as soon as `views == 0`; otherwise
`base_engagement = votes/views*100`,
`diversity_bonus = (unique_voters/votes)*10 if votes > 0 else 0`,
`recency_bonus = max(0, 10 - poll_age_hours/24)`,
`score = (base + diversity + recency) * complexity_factor`,
returned as `min(100.0, max(0.0, score))`. -/
def calculate_engagement_score (votes views unique_voters : ℕ)
    (poll_age_hours : ℚ) (option_count : ℕ) : ℚ :=
  if views = 0 then 0
  else
    let base_engagement : ℚ := (votes : ℚ) / (views : ℚ) * 100
    let diversity_bonus : ℚ := if votes > 0 then (unique_voters : ℚ) / (votes : ℚ) * 10 else 0
    let recency_bonus : ℚ := max 0 (10 - poll_age_hours / 24)
    let score := (base_engagement + diversity_bonus + recency_bonus) * complexity_factor option_count
    min 100 (max 0 score)

/-- Modelled from the spec (§4.4 Engagement score), for comparison with the
source function: `clamp((base_engagement + diversity_bonus + recency_bonus) ×
complexity_factor, 0, 100)` where `base_engagement = votes/views×100` (0 if
views=0), `diversity_bonus = unique_voters/votes×10` (0 if votes=0),
`recency_bonus = max(0, 10 − age_hours/24)`,
`complexity_factor = min(1.2, 1 + (option_count−2)×0.1)`. -/
def specEngagementScore (votes views unique_voters : ℕ)
    (poll_age_hours : ℚ) (option_count : ℕ) : ℚ :=
  let base_engagement : ℚ := if views = 0 then 0 else (votes : ℚ) / (views : ℚ) * 100
  let diversity_bonus : ℚ := if votes = 0 then 0 else (unique_voters : ℚ) / (votes : ℚ) * 10
  let recency_bonus : ℚ := max 0 (10 - poll_age_hours / 24)
  let cf : ℚ := min (6/5) (1 + ((option_count : ℚ) - 2) * (1/10))
  clamp ((base_engagement + diversity_bonus + recency_bonus) * cf) 0 100

/-- From services.get_poll_analytics (lines 140-142).  Timestamps are epoch
seconds: `hours_since_creation = (now - created_at).total_seconds() / 3600`,
`vote_velocity = total_votes / hours_since_creation if hours_since_creation > 0
else 0.0`. -/
def vote_velocity (total_votes : ℕ) (now created_at : ℚ) : ℚ :=
  let hours_since_creation : ℚ := (now - created_at) / 3600
  if hours_since_creation > 0 then (total_votes : ℚ) / hours_since_creation else 0

/-- From utils.AnalyticsCalculator.calculate_trend_direction (lines 107-135):
returns `'stable'` when `len(values) < window_size * 2`; otherwise compares the
mean of the first window with the mean of the last window through
`change_ratio = (last - first) / first if first > 0 else 0` against the 10%
threshold. -/
def calculate_trend_direction (values : List ℚ) (window_size : ℕ) : String :=
  if values.length < window_size * 2 then "stable"
  else
    let first_window : ℚ := (values.take window_size).sum / (window_size : ℚ)
    let last_window : ℚ := (values.drop (values.length - window_size)).sum / (window_size : ℚ)
    let change_ratio : ℚ := if first_window > 0 then (last_window - first_window) / first_window else 0
    if change_ratio > 1/10 then "increasing"
    else if change_ratio < -(1/10) then "decreasing"
    else "stable"

/-- Modelled from the spec (§4.3 rule, parameterized by the two window means):
`second > first×1.10 → "increasing"; second < first×0.90 → "decreasing";
else "stable"`. -/
def specTrendRule (first_mean last_mean : ℚ) : String :=
  if last_mean > first_mean * (11/10) then "increasing"
  else if last_mean < first_mean * (9/10) then "decreasing"
  else "stable"

/-- Modelled from the spec (§4.4 Trend direction): "returns `stable` if fewer
than 2w points exist; else compares mean of first w to mean of last w" with the
§4.3 rule. -/
def specTrendDirection (values : List ℚ) (w : ℕ) : String :=
  if values.length < 2 * w then "stable"
  else specTrendRule ((values.take w).sum / (w : ℚ)) ((values.drop (values.length - w)).sum / (w : ℚ))

/-- From utils.AnalyticsCalculator.calculate_percentile_rank (lines 137-159):
returns `50.0` for an empty dataset; otherwise sorts the dataset, counts
elements strictly below and elements equal to the value, and returns
`round((count_below + count_equal/2) / len * 100, 2)`. -/
def calculate_percentile_rank (value : ℚ) (dataset : List ℚ) : ℚ :=
  if dataset = [] then 50
  else
    let sorted_data := dataset.mergeSort (fun a b => a ≤ b)
    let count_below : ℕ := sorted_data.countP (fun x => x < value)
    let count_equal : ℕ := sorted_data.countP (fun x => x = value)
    roundTo2 (((count_below : ℚ) + (count_equal : ℚ) / 2) / (sorted_data.length : ℚ) * 100)

/-- From utils.DataAggregator.calculate_moving_average (lines 354-375):
returns `values` unchanged when `len(values) < window_size`; otherwise the list
of trailing-window means `sum(values[i:i+window_size]) / window_size` for
`i` in `range(len(values) - window_size + 1)`. -/
def calculate_moving_average (values : List ℚ) (window_size : ℕ) : List ℚ :=
  if values.length < window_size then values
  else
    (List.range (values.length - window_size + 1)).map
      (fun i => ((values.drop i).take window_size).sum / (window_size : ℚ))

open Classical in
/-- From utils.DataAggregator.detect_anomalies (lines 377-408): returns `[]`
when `len(values) < 3`; otherwise `mean = sum/len`,
`variance = sum((x-mean)^2)/len`, `std_dev = variance ** 0.5` (a real square
root, hence the `Real.sqrt`), and flags each `(i, value)` with
`abs(value - mean) > threshold_std * std_dev` (strict comparison). -/
noncomputable def detect_anomalies (values : List ℚ) (threshold_std : ℚ) : List (ℕ × ℚ) :=
  if values.length < 3 then []
  else
    let mean_val : ℚ := values.sum / (values.length : ℚ)
    let variance : ℚ := (values.map (fun x => (x - mean_val) ^ 2)).sum / (values.length : ℚ)
    values.enum.filter
      (fun iv => decide ((threshold_std : ℝ) * Real.sqrt ((variance : ℚ) : ℝ)
        < |((iv.2 : ℚ) : ℝ) - ((mean_val : ℚ) : ℝ)|))

/-- Poll row as seen by services._get_most_popular_poll: the fields it reads
(`id`, `question`, `created_at`). -/
structure PollRow where
  id : ℕ
  question : String
  created_at : ℤ
deriving DecidableEq

/-- The PollSummary schema fields produced by services._get_most_popular_poll. -/
structure PollSummary where
  id : ℕ
  question : String
  created_at : ℤ
deriving DecidableEq

/-- From services._get_most_popular_poll (lines 288-313): starts from
`max_votes = 0, most_popular = None`, queries each poll's vote count
(abstracted as `voteCount : poll id → ℕ`), and updates only when
`vote_count > max_votes`; returns a PollSummary of the winner, or `none`. -/
def mostPopularPoll (polls : List PollRow) (voteCount : ℕ → ℕ) : Option PollSummary :=
  if polls = [] then none
  else
    let final := polls.foldl
      (fun (acc : ℕ × Option PollRow) poll =>
        if voteCount poll.id > acc.1 then (voteCount poll.id, some poll) else acc)
      (0, none)
    final.2.map (fun p => { id := p.id, question := p.question, created_at := p.created_at })

/-- Python dict assignment `d[text] = count`: overwrites in place when the key
is present, otherwise appends at the end (insertion order). -/
def dictInsert (d : List (String × ℕ)) (k : String) (v : ℕ) : List (String × ℕ) :=
  if d.any (fun p => p.1 = k) then d.map (fun p => if p.1 = k then (k, v) else p)
  else d ++ [(k, v)]

/-- From services._get_vote_distribution (lines 254-264): the grouped query
yields one `(option_text, vote_count)` row per option; the returned dict is
the comprehension `{option_text: vote_count for option_text, vote_count in
results}`, i.e. rows inserted left to right with last-wins overwriting. -/
def buildDist (rows : List (String × ℕ)) : List (String × ℕ) :=
  rows.foldl (fun d p => dictInsert d p.1 p.2) []

/-- From services.get_poll_analytics (line 125):
`total_votes = sum(vote_distribution.values())`. -/
def totalVotes (rows : List (String × ℕ)) : ℕ :=
  ((buildDist rows).map Prod.snd).sum

/-! ## Helper lemmas -/

theorem roundTo2_nonneg {x : ℚ} (hx : 0 ≤ x) : 0 ≤ roundTo2 x := by
  unfold roundTo2
  have h : (0:ℤ) ≤ round (x * 100) := by
    rw [round_eq]
    exact Int.floor_nonneg.mpr (by linarith)
  have h2 : (0:ℚ) ≤ ((round (x * 100) : ℤ) : ℚ) := by exact_mod_cast h
  linarith

theorem roundTo2_le_100 {x : ℚ} (hx : x ≤ 100) : roundTo2 x ≤ 100 := by
  unfold roundTo2
  have h : round (x * 100) ≤ 10000 := by
    rw [round_eq]
    have hfl : ⌊x * 100 + 1/2⌋ ≤ ⌊(10000 : ℚ) + 1/2⌋ := Int.floor_le_floor (by linarith)
    have : ⌊(10000 : ℚ) + 1/2⌋ = 10000 := by norm_num
    omega
  have h2 : ((round (x * 100) : ℤ) : ℚ) ≤ 10000 := by exact_mod_cast h
  linarith

/-! ## C1 -/

/-- C1 counterexample: the claim that `engagement_rate` is always in [0, 100]
fails when `total_votes` exceeds `total_views`: with 5 votes and 1 view the
code returns 500. -/
theorem engagement_rate_exceeds_100 :
    engagement_rate 5 1 = 500 ∧ ¬ engagement_rate 5 1 ≤ 100 := by
  norm_num [engagement_rate]

/-- C1 (amended): for all non-negative vote counts, view counts, and integer
poll ages, `performance_score` is in [0, 100], and `engagement_rate` is
non-negative and bounded by 100 whenever `total_votes ≤ total_views`; when
votes exceed views with views positive the rate equals votes/views×100, which
exceeds 100. -/
theorem engagement_and_performance_bounds (v w : ℕ) (d : ℤ) :
    0 ≤ engagement_rate v w ∧ (v ≤ w → engagement_rate v w ≤ 100) ∧
    0 ≤ performance_score v w d ∧ performance_score v w d ≤ 100 := by
  have her0 : 0 ≤ engagement_rate v w := by
    unfold engagement_rate
    split_ifs with h
    · positivity
    · norm_num
  have her1 : v ≤ w → engagement_rate v w ≤ 100 := by
    intro hvw
    unfold engagement_rate
    split_ifs with h
    · have hw : (0:ℚ) < (w:ℚ) := by exact_mod_cast h
      have hv : (v:ℚ) ≤ (w:ℚ) := by exact_mod_cast hvw
      have : (v:ℚ) / (w:ℚ) ≤ 1 := (div_le_one hw).mpr hv
      linarith
    · norm_num
  have hfrac0 : 0 ≤ (if w > 0 then (v : ℚ) / (w : ℚ) else 0) := by
    split_ifs with h
    · positivity
    · norm_num
  have hrec0 : (0:ℚ) ≤ max 0 (1 - (d : ℚ) / 30) := le_max_left _ _
  have hinner0 : (0:ℚ) ≤ min 100 ((v : ℚ) * 10 + (if w > 0 then (v : ℚ) / (w : ℚ) else 0) * 50
      + max 0 (1 - (d : ℚ) / 30) * 20) := by
    apply le_min (by norm_num)
    have hv0 : (0:ℚ) ≤ (v:ℚ) := by positivity
    nlinarith
  refine ⟨her0, her1, ?_, ?_⟩
  · simp only [performance_score]
    exact roundTo2_nonneg hinner0
  · simp only [performance_score]
    exact roundTo2_le_100 (min_le_left _ _)

/-- C1 witness at votes = 3, views = 4, days_old = 10. -/
theorem engagement_and_performance_bounds_witness :
    0 ≤ engagement_rate 3 4 ∧ engagement_rate 3 4 ≤ 100 ∧
    0 ≤ performance_score 3 4 10 ∧ performance_score 3 4 10 ≤ 100 :=
  ⟨(engagement_and_performance_bounds 3 4 10).1,
   (engagement_and_performance_bounds 3 4 10).2.1 (by decide),
   (engagement_and_performance_bounds 3 4 10).2.2.1,
   (engagement_and_performance_bounds 3 4 10).2.2.2⟩

/-! ## C2 -/

/-- C2 counterexample: with views = 0 (votes = 0, unique voters = 0, age 0,
2 options) the source returns 0.0 immediately, while the claimed clamp formula
still pays the recency bonus and yields 10; the bonuses do not contribute when
views = 0. -/
theorem engagement_score_zero_views_counterexample :
    calculate_engagement_score 0 0 0 0 2 = 0 ∧ specEngagementScore 0 0 0 0 2 = 10 ∧
    calculate_engagement_score 0 0 0 0 2 ≠ specEngagementScore 0 0 0 0 2 := by
  refine ⟨?_, ?_, ?_⟩ <;> norm_num [calculate_engagement_score, specEngagementScore, clamp]

/-- C2 (amended): `calculate_engagement_score` equals the claimed clamp
formula whenever views > 0, but returns 0.0 outright when views = 0 (the
diversity and recency bonuses never contribute in that case). -/
theorem engagement_score_spec_relation (v w u : ℕ) (a : ℚ) (n : ℕ) :
    calculate_engagement_score v w u a n =
      if w = 0 then 0 else specEngagementScore v w u a n := by
  by_cases hw : w = 0
  · simp [calculate_engagement_score, hw]
  · simp only [calculate_engagement_score, specEngagementScore, complexity_factor, clamp,
      if_neg hw]
    have hdiv : (if v > 0 then (u:ℚ) / (v:ℚ) * 10 else 0)
        = (if v = 0 then 0 else (u:ℚ) / (v:ℚ) * 10) := by
      rcases Nat.eq_zero_or_pos v with h | h
      · simp [h]
      · rw [if_pos h, if_neg (Nat.pos_iff_ne_zero.mp h)]
    rw [hdiv, max_min_distrib_left]
    have h100 : (0:ℚ) ⊔ 100 = 100 := by norm_num
    rw [h100]

/-! ## C3 -/

/-- C3 counterexample: a poll half an hour old (1800 seconds) with 2 votes has
age < 1 hour, yet the code computes `vote_velocity = 2 / 0.5 = 4`, not 0.0 —
the guard is `hours_since_creation > 0`, not `≥ 1`. -/
theorem vote_velocity_subhour_counterexample :
    (1800 - (0:ℚ)) / 3600 < 1 ∧ vote_velocity 2 1800 0 = 4 ∧ vote_velocity 2 1800 0 ≠ 0 := by
  refine ⟨by norm_num, ?_, ?_⟩ <;> norm_num [vote_velocity]

/-- C3 (amended): for every poll created strictly before the call time,
`vote_velocity = total_votes / hours_since_creation` — including polls less
than one hour old, whose fractional hour age is used as the denominator; only
a non-positive age yields 0.0. -/
theorem vote_velocity_positive_age (v : ℕ) (now created : ℚ) (h : created < now) :
    vote_velocity v now created = (v : ℚ) * 3600 / (now - created) := by
  unfold vote_velocity
  have hpos : (0:ℚ) < (now - created) / 3600 := by
    have : (0:ℚ) < now - created := sub_pos.mpr h
    positivity
  rw [if_pos hpos, div_div_eq_mul_div]

/-- C3 witness at 2 votes for a poll 1800 seconds (half an hour) old. -/
theorem vote_velocity_positive_age_witness :
    vote_velocity 2 1800 0 = (2 : ℚ) * 3600 / (1800 - 0) :=
  vote_velocity_positive_age 2 1800 0 (by norm_num)

/-! ## C4 -/

/-- C4 counterexample: for a poll with 0 options the complexity factor is
`min(1.2, 1 + (0-2)*0.1) = 0.8`, which is below the claimed lower bound 1.0. -/
theorem complexity_factor_below_one :
    complexity_factor 0 = 4/5 ∧ ¬ (1 ≤ complexity_factor 0) := by
  norm_num [complexity_factor]

/-- C4 (amended): for every option count the complexity factor lies in
[0.8, 1.2]; the claimed lower bound 1.0 holds only for polls with at least 2
options. -/
theorem complexity_factor_bounds (n : ℕ) :
    4/5 ≤ complexity_factor n ∧ complexity_factor n ≤ 6/5 ∧
    (2 ≤ n → 1 ≤ complexity_factor n) := by
  unfold complexity_factor
  refine ⟨?_, min_le_left _ _, ?_⟩
  · apply le_min (by norm_num)
    have h : (0:ℚ) ≤ (n:ℚ) := Nat.cast_nonneg n
    linarith
  · intro h2
    apply le_min (by norm_num)
    have h : (2:ℚ) ≤ (n:ℚ) := by exact_mod_cast h2
    linarith

/-- C4 witness at option_count = 3. -/
theorem complexity_factor_bounds_witness :
    4/5 ≤ complexity_factor 3 ∧ complexity_factor 3 ≤ 6/5 ∧ 1 ≤ complexity_factor 3 :=
  ⟨(complexity_factor_bounds 3).1, (complexity_factor_bounds 3).2.1,
   (complexity_factor_bounds 3).2.2 (by decide)⟩

/-! ## C5 -/

theorem detect_anomalies_on_scenario : detect_anomalies [1, 1, 1, 1, 100] 2 = [] := by
  unfold detect_anomalies
  rw [if_neg (by norm_num)]
  have hmean : (([1, 1, 1, 1, 100] : List ℚ).sum
      / (([1, 1, 1, 1, 100] : List ℚ).length : ℚ)) = 104/5 := by
    norm_num
  simp only [hmean]
  have hvar : ((([1, 1, 1, 1, 100] : List ℚ).map (fun x => (x - 104/5) ^ 2)).sum
      / (([1, 1, 1, 1, 100] : List ℚ).length : ℚ)) = 39204/25 := by
    norm_num
  simp only [hvar]
  have hsqrt : Real.sqrt ((39204/25 : ℚ) : ℝ) = 198/5 := by
    have h : ((39204/25 : ℚ) : ℝ) = (198/5 : ℝ) ^ 2 := by
      push_cast
      norm_num
    rw [h, Real.sqrt_sq (by norm_num : (0:ℝ) ≤ 198/5)]
  simp only [hsqrt]
  rw [List.filter_eq_nil_iff]
  intro iv hiv
  have henum : List.enum ([1, 1, 1, 1, 100] : List ℚ)
      = [(0, 1), (1, 1), (2, 1), (3, 1), (4, 100)] := rfl
  rw [henum] at hiv
  simp only [List.mem_cons, List.not_mem_nil, or_false] at hiv
  simp only [decide_eq_true_eq, not_lt]
  rcases hiv with h | h | h | h | h <;> rw [h] <;> push_cast <;>
    rw [abs_le] <;> constructor <;> norm_num

/-- C5 counterexample: on [1,1,1,1,100] with threshold_std = 2.0 and exact
arithmetic, the population standard deviation is exactly 39.6, so index 4's
deviation |100 − 20.8| = 79.2 equals the threshold 2×39.6 exactly; the strict
comparison fails and no point is flagged — the claimed result [(4, 100)] is
wrong. -/
theorem detect_anomalies_scenario_counterexample :
    detect_anomalies [1, 1, 1, 1, 100] 2 ≠ [(4, 100)] := by
  rw [detect_anomalies_on_scenario]
  simp

/-- C5 (amended): with exact (rational) arithmetic, detect_anomalies on
[1,1,1,1,100] with threshold_std = 2.0 flags nothing (the only candidate,
index 4, sits exactly on the strict threshold), and every series of fewer
than 3 values yields the empty list. -/
theorem detect_anomalies_exact_behavior :
    detect_anomalies [1, 1, 1, 1, 100] 2 = [] ∧
    ∀ (values : List ℚ) (threshold_std : ℚ), values.length < 3 →
      detect_anomalies values threshold_std = [] := by
  refine ⟨detect_anomalies_on_scenario, ?_⟩
  intro values threshold_std h
  unfold detect_anomalies
  rw [if_pos h]

/-- C5 witness for the short-series clause at [1, 2] with threshold 2. -/
theorem detect_anomalies_exact_behavior_witness :
    detect_anomalies [1, 2] 2 = [] :=
  detect_anomalies_exact_behavior.2 [1, 2] 2 (by norm_num)

/-! ## C6 -/

/-- C6 counterexample: on the series [0,0,0,5,5,5] with window 3 the
first-window mean is 0, so the helper's `change_ratio` defaults to 0 and it
returns "stable", while the §4.3 rule (`last > first×1.10`) classifies the
series as "increasing" — the two do not agree when the first-window mean is
zero. -/
theorem trend_direction_zero_mean_counterexample :
    calculate_trend_direction [0,0,0,5,5,5] 3 = "stable" ∧
    specTrendDirection [0,0,0,5,5,5] 3 = "increasing" ∧
    calculate_trend_direction [0,0,0,5,5,5] 3 ≠ specTrendDirection [0,0,0,5,5,5] 3 := by
  have h1 : calculate_trend_direction [0,0,0,5,5,5] 3 = "stable" := by
    norm_num [calculate_trend_direction]
  have h2 : specTrendDirection [0,0,0,5,5,5] 3 = "increasing" := by
    norm_num [specTrendDirection, specTrendRule]
  refine ⟨h1, h2, ?_⟩
  rw [h1, h2]
  decide

/-- C6 (amended): `calculate_trend_direction` and the §4.3 rule agree on every
series whose first-window sum (hence mean) is positive, and both return
"stable" for series shorter than 2w; when the first-window mean is zero or
negative the helper forces `change_ratio = 0` and returns "stable", which can
disagree with the §4.3 rule. -/
theorem trend_direction_agrees_on_positive_first_mean (values : List ℚ) (w : ℕ)
    (hw : 0 < w) :
    (0 < (values.take w).sum →
      calculate_trend_direction values w = specTrendDirection values w) ∧
    (values.length < 2 * w →
      calculate_trend_direction values w = "stable" ∧
      specTrendDirection values w = "stable") := by
  constructor
  · intro hsum
    by_cases hlen : values.length < w * 2
    · simp only [calculate_trend_direction, specTrendDirection, if_pos hlen,
        if_pos (by omega : values.length < 2 * w)]
    · simp only [calculate_trend_direction, specTrendDirection, specTrendRule,
        if_neg hlen, if_neg (by omega : ¬ values.length < 2 * w)]
      have hwq : (0:ℚ) < (w:ℚ) := by exact_mod_cast hw
      set F := (values.take w).sum / (w : ℚ) with hF
      set L := (values.drop (values.length - w)).sum / (w : ℚ) with hL
      have hFpos : 0 < F := div_pos hsum hwq
      rw [if_pos hFpos]
      have h1 : ((L - F) / F > 1/10) ↔ (L > F * (11/10)) := by
        rw [gt_iff_lt, lt_div_iff₀ hFpos]
        constructor <;> intro h <;> nlinarith
      have h2 : ((L - F) / F < -(1/10)) ↔ (L < F * (9/10)) := by
        rw [div_lt_iff₀ hFpos]
        constructor <;> intro h <;> nlinarith
      simp only [h1, h2]
  · intro hlen
    constructor
    · simp only [calculate_trend_direction, if_pos (by omega : values.length < w * 2)]
    · simp only [specTrendDirection, if_pos hlen]

/-- C6 witness on [1,1,1,2,2,2] with window 3: both classifiers compute and
agree ("increasing"). -/
theorem trend_direction_agrees_on_positive_first_mean_witness :
    calculate_trend_direction [1,1,1,2,2,2] 3 = specTrendDirection [1,1,1,2,2,2] 3 :=
  (trend_direction_agrees_on_positive_first_mean [1,1,1,2,2,2] 3 (by decide)).1
    (by norm_num)

/-! ## C7 -/

/-- C7: for every non-empty dataset all of whose elements equal the queried
value, `calculate_percentile_rank` returns exactly 50.0: no element is
strictly below, every element ties, and `(0 + n/2)/n × 100 = 50` survives the
2-decimal rounding. -/
theorem percentile_rank_all_equal (D : List ℚ) (v : ℚ) (hne : D ≠ [])
    (hall : ∀ x ∈ D, x = v) : calculate_percentile_rank v D = 50 := by
  simp only [calculate_percentile_rank, if_neg hne]
  have hperm : List.Perm (D.mergeSort fun a b => a ≤ b) D := List.mergeSort_perm D _
  have hlen : (D.mergeSort fun a b => a ≤ b).length = D.length := hperm.length_eq
  have hmem : ∀ x ∈ (D.mergeSort fun a b => a ≤ b), x = v :=
    fun x hx => hall x (hperm.mem_iff.mp hx)
  have hb : (D.mergeSort fun a b => a ≤ b).countP (fun x => x < v) = 0 := by
    rw [List.countP_eq_zero]
    intro x hx
    simp only [decide_eq_true_eq, not_lt]
    rw [hmem x hx]
  have he : (D.mergeSort fun a b => a ≤ b).countP (fun x => x = v)
      = (D.mergeSort fun a b => a ≤ b).length := by
    rw [List.countP_eq_length]
    intro x hx
    simp [hmem x hx]
  rw [hb, he, hlen]
  have hn : (0:ℚ) < (D.length : ℚ) := by
    have h0 : D.length ≠ 0 := by simpa [List.length_eq_zero] using hne
    exact_mod_cast Nat.pos_of_ne_zero h0
  have hhalf : (((0:ℕ) : ℚ) + (D.length : ℚ) / 2) / (D.length : ℚ) * 100 = 50 := by
    field_simp
    ring
  rw [hhalf]
  norm_num [roundTo2, round_eq]

/-- C7 witness: the dataset [7,7,7] against the value 7. -/
theorem percentile_rank_all_equal_witness : calculate_percentile_rank 7 [7,7,7] = 50 :=
  percentile_rank_all_equal [7,7,7] 7 (by decide) (by simp)

/-! ## C8 -/

/-- C8: `calculate_moving_average` returns the series unchanged whenever it is
shorter than the window (the identity law). -/
theorem moving_average_short_series_identity (values : List ℚ) (w : ℕ)
    (h : values.length < w) : calculate_moving_average values w = values := by
  simp only [calculate_moving_average, if_pos h]

/-- C8 witness: [1,2] with window 5. -/
theorem moving_average_short_series_identity_witness :
    calculate_moving_average [1,2] 5 = [1,2] :=
  moving_average_short_series_identity [1,2] 5 (by norm_num)

/-! ## C9 -/

/-- C9: in the user overview, when the user owns at least one poll but every
owned poll has zero votes, `_get_most_popular_poll` returns None: the fold
starts from `max_votes = 0` and only updates on `vote_count > max_votes`, so a
zero-vote poll is never selected even though `total_polls > 0`. -/
theorem most_popular_poll_none_when_all_zero (polls : List PollRow)
    (voteCount : ℕ → ℕ) (hne : polls ≠ [])
    (hzero : ∀ p ∈ polls, voteCount p.id = 0) :
    mostPopularPoll polls voteCount = none ∧ 0 < polls.length := by
  refine ⟨?_, List.length_pos.mpr hne⟩
  simp only [mostPopularPoll, if_neg hne]
  have hfold : ∀ l : List PollRow, (∀ p ∈ l, voteCount p.id = 0) →
      l.foldl
        (fun (acc : ℕ × Option PollRow) poll =>
          if voteCount poll.id > acc.1 then (voteCount poll.id, some poll) else acc)
        (0, none) = (0, none) := by
    intro l
    induction l with
    | nil => intro _; rfl
    | cons p tl ih =>
      intro hz
      rw [List.foldl_cons]
      have hp : voteCount p.id = 0 := hz p (List.mem_cons_self p tl)
      have hstep : (if voteCount p.id > ((0 : ℕ), (none : Option PollRow)).1
          then (voteCount p.id, some p) else ((0 : ℕ), (none : Option PollRow)))
          = ((0 : ℕ), (none : Option PollRow)) := by
        rw [hp]
        simp
      rw [hstep]
      exact ih (fun q hq => hz q (List.mem_cons_of_mem p hq))
  rw [hfold polls hzero]
  rfl

/-- C9 witness: one poll, zero votes everywhere. -/
theorem most_popular_poll_none_when_all_zero_witness :
    mostPopularPoll [⟨1, "q", 0⟩] (fun _ => 0) = none ∧
    0 < ([⟨1, "q", 0⟩] : List PollRow).length :=
  most_popular_poll_none_when_all_zero [⟨1, "q", 0⟩] (fun _ => 0)
    (by simp) (by simp)

/-! ## C10 helper lemmas -/

theorem foldl_dictInsert_fresh (rows : List (String × ℕ)) :
    ∀ d : List (String × ℕ), (∀ p ∈ rows, ∀ q ∈ d, q.1 ≠ p.1) →
    (rows.map Prod.fst).Nodup →
    rows.foldl (fun d p => dictInsert d p.1 p.2) d = d ++ rows := by
  induction rows with
  | nil => intro d _ _; simp
  | cons r tl ih =>
    intro d hfresh hnodup
    rw [List.foldl_cons]
    have hins : dictInsert d r.1 r.2 = d ++ [r] := by
      have hcond : ¬ (d.any fun p => p.1 = r.1) = true := by
        simp only [List.any_eq_true, decide_eq_true_eq]
        push_neg
        intro q hq
        exact hfresh r (List.mem_cons_self r tl) q hq
      unfold dictInsert
      rw [if_neg hcond]
    rw [hins, ih (d ++ [r]) ?_ ?_]
    · rw [List.append_assoc, List.singleton_append]
    · intro p hp q hq
      rcases List.mem_append.mp hq with hq1 | hq2
      · exact hfresh p (List.mem_cons_of_mem r hp) q hq1
      · rw [List.mem_singleton.mp hq2]
        simp only [List.map_cons, List.nodup_cons] at hnodup
        intro heq
        exact hnodup.1 (heq ▸ List.mem_map_of_mem Prod.fst hp)
    · simp only [List.map_cons, List.nodup_cons] at hnodup
      exact hnodup.2

theorem dictInsert_overwrite (pre post : List (String × ℕ)) (t : String) (c v : ℕ)
    (hpre : ∀ q ∈ pre, q.1 ≠ t) (hpost : ∀ q ∈ post, q.1 ≠ t) :
    dictInsert (pre ++ [(t, c)] ++ post) t v = pre ++ [(t, v)] ++ post := by
  unfold dictInsert
  rw [if_pos]
  · rw [List.map_append, List.map_append]
    have h1 : pre.map (fun p => if p.1 = t then (t, v) else p) = pre := by
      rw [List.map_congr_left (g := id) (fun p hp => by rw [if_neg (hpre p hp)]; rfl)]
      exact List.map_id pre
    have h2 : post.map (fun p => if p.1 = t then (t, v) else p) = post := by
      rw [List.map_congr_left (g := id) (fun p hp => by rw [if_neg (hpost p hp)]; rfl)]
      exact List.map_id post
    have h3 : ([(t, c)] : List (String × ℕ)).map (fun p => if p.1 = t then (t, v) else p)
        = [(t, v)] := by simp
    rw [h1, h2, h3]
  · simp only [List.any_eq_true, decide_eq_true_eq]
    exact ⟨(t, c), by simp, rfl⟩

/-! ## C10 -/

/-- C10: when the grouped vote-distribution query yields two rows with the
same option text t (counts c₁ then c₂, all other texts distinct), the dict
comprehension keeps a single entry for t carrying the count of the last row,
and `total_votes = sum(vote_distribution.values())` omits the earlier
same-text option's votes (the total is the sum of the other rows plus c₂
only). -/
theorem vote_distribution_duplicate_text
    (pre mid post : List (String × ℕ)) (t : String) (c₁ c₂ : ℕ)
    (hpre : t ∉ pre.map Prod.fst) (hmid : t ∉ mid.map Prod.fst)
    (hpost : t ∉ post.map Prod.fst)
    (hnodup : ((pre ++ mid ++ post).map Prod.fst).Nodup) :
    (buildDist (pre ++ [(t, c₁)] ++ mid ++ [(t, c₂)] ++ post)).filter
        (fun p => p.1 = t) = [(t, c₂)] ∧
    totalVotes (pre ++ [(t, c₁)] ++ mid ++ [(t, c₂)] ++ post)
        = ((pre ++ mid ++ post).map Prod.snd).sum + c₂ := by
  simp only [List.map_append, List.nodup_append] at hnodup
  obtain ⟨⟨hnpre, hnmid, hdpm⟩, hnpost, hdisj⟩ := hnodup
  have hpre1 : ∀ q ∈ pre, q.1 ≠ t := by
    intro q hq heq
    exact hpre (heq ▸ List.mem_map_of_mem Prod.fst hq)
  have hmid1 : ∀ q ∈ mid, q.1 ≠ t := by
    intro q hq heq
    exact hmid (heq ▸ List.mem_map_of_mem Prod.fst hq)
  have hpost1 : ∀ q ∈ post, q.1 ≠ t := by
    intro q hq heq
    exact hpost (heq ▸ List.mem_map_of_mem Prod.fst hq)
  have hbuild : buildDist (pre ++ [(t, c₁)] ++ mid ++ [(t, c₂)] ++ post)
      = pre ++ [(t, c₂)] ++ mid ++ post := by
    unfold buildDist
    rw [List.foldl_append, List.foldl_append, List.foldl_append, List.foldl_append]
    rw [foldl_dictInsert_fresh pre [] (by intro p _ q hq; cases hq) hnpre]
    rw [List.nil_append]
    have hstep1 : List.foldl (fun d p => dictInsert d p.1 p.2) pre [(t, c₁)]
        = pre ++ [(t, c₁)] :=
      foldl_dictInsert_fresh [(t, c₁)] pre
        (by
          intro p hp q hq
          rw [List.mem_singleton.mp hp]
          exact hpre1 q hq)
        (by simp)
    rw [hstep1]
    rw [foldl_dictInsert_fresh mid (pre ++ [(t, c₁)]) ?_ hnmid]
    · have hover : dictInsert (pre ++ [(t, c₁)] ++ mid) t c₂
          = pre ++ [(t, c₂)] ++ mid :=
        dictInsert_overwrite pre mid t c₁ c₂ hpre1 hmid1
      rw [List.foldl_cons, List.foldl_nil, hover]
      rw [foldl_dictInsert_fresh post (pre ++ [(t, c₂)] ++ mid) ?_ hnpost]
      · intro p hp q hq
        rcases List.mem_append.mp hq with hq1 | hq2
        · rcases List.mem_append.mp hq1 with hq3 | hq4
          · intro heq
            exact hdisj
              (List.mem_append.mpr (Or.inl (heq ▸ List.mem_map_of_mem Prod.fst hq3)))
              (List.mem_map_of_mem Prod.fst hp)
          · rw [List.mem_singleton.mp hq4]
            intro heq
            exact hpost1 p hp heq.symm
        · intro heq
          exact hdisj
            (List.mem_append.mpr (Or.inr (heq ▸ List.mem_map_of_mem Prod.fst hq2)))
            (List.mem_map_of_mem Prod.fst hp)
    · intro p hp q hq
      rcases List.mem_append.mp hq with hq1 | hq2
      · intro heq
        exact hdpm (heq ▸ List.mem_map_of_mem Prod.fst hq1)
          (List.mem_map_of_mem Prod.fst hp)
      · rw [List.mem_singleton.mp hq2]
        intro heq
        exact hmid1 p hp heq.symm
  constructor
  · rw [hbuild]
    rw [List.filter_append, List.filter_append, List.filter_append]
    have f1 : pre.filter (fun p => p.1 = t) = [] := by
      rw [List.filter_eq_nil_iff]
      intro q hq
      simp only [decide_eq_true_eq]
      exact hpre1 q hq
    have f2 : mid.filter (fun p => p.1 = t) = [] := by
      rw [List.filter_eq_nil_iff]
      intro q hq
      simp only [decide_eq_true_eq]
      exact hmid1 q hq
    have f3 : post.filter (fun p => p.1 = t) = [] := by
      rw [List.filter_eq_nil_iff]
      intro q hq
      simp only [decide_eq_true_eq]
      exact hpost1 q hq
    rw [f1, f2, f3]
    simp
  · unfold totalVotes
    rw [hbuild]
    simp only [List.map_append, List.sum_append, List.map_cons, List.map_nil,
      List.sum_cons, List.sum_nil]
    omega

/-- C10 witness: options A(3), X(5), B(1), X(7), C(4) — the distribution keeps
a single X entry with count 7 and the total is 8 + 7 = 15, omitting the first
X's 5 votes. -/
theorem vote_distribution_duplicate_text_witness :
    (buildDist [("A", 3), ("X", 5), ("B", 1), ("X", 7), ("C", 4)]).filter
        (fun p => p.1 = "X") = [("X", 7)] ∧
    totalVotes [("A", 3), ("X", 5), ("B", 1), ("X", 7), ("C", 4)] = 8 + 7 :=
  vote_distribution_duplicate_text [("A", 3)] [("B", 1)] [("C", 4)] "X" 5 7
    (by decide) (by decide) (by decide) (by decide)

end PollyAnalytics
